import Mathlib

/-!
Verification of the control-plane core of the claude-code-sdk-go repository:
the control-protocol correlator (control_protocol.go), the hook registry
(internal/shared hooks), and the tool-permission gate (permission callbacks).

The Go code is shallowly embedded: Go maps become association lists, the
capacity-one channels of a PendingControlResponse become explicit
buffer/closed fields, goroutine hand-off becomes explicit outcome data, and
`fmt.Sprintf("%d", n)` becomes an executable decimal printer, and the int64
request counter is carried as its unsigned 64-bit bit pattern with wrapping
increment.  Operations are modelled sequentially; lock acquisition is made
explicit only where it changes observable behaviour: `HandleControlResponse`
re-acquires the non-reentrant `pendingResponsesMu` it already holds when it
reaches its cleanup call, so its delivery path is modelled as a deadlock
outcome rather than a return.
-/

set_option autoImplicit false

namespace ClaudeSDK

/-- Model of a Go `any` value as used in `map[string]any` payloads. -/
inductive GoVal where
  | bool (b : Bool)
  | str (s : String)
  | int (n : Int)
  deriving DecidableEq, Repr

/-- Model of Go `map[string]any` as an association list. -/
abbrev GoMap := List (String × GoVal)

/-- Lookup in an association list modelling a Go map read `v, ok := m[k]`. -/
def lookupKey {β : Type} (k : String) : List (String × β) → Option β
  | [] => none
  | (k₁, v) :: rest => if k₁ = k then some v else lookupKey k rest

/-- Association-list update modelling a Go map assignment `m[k] = v`. -/
def insertKey {β : Type} (k : String) (v : β) : List (String × β) → List (String × β)
  | [] => [(k, v)]
  | (k₁, v₁) :: rest => if k₁ = k then (k, v) :: rest else (k₁, v₁) :: insertKey k v rest

/-- Association-list removal modelling a Go map deletion `delete(m, k)`. -/
def eraseKey {β : Type} (k : String) : List (String × β) → List (String × β)
  | [] => []
  | (k₁, v₁) :: rest => if k₁ = k then rest else (k₁, v₁) :: eraseKey k rest

theorem lookupKey_insertKey {β : Type} (k j : String) (v : β) (l : List (String × β)) :
    lookupKey j (insertKey k v l) = if j = k then some v else lookupKey j l := by
  induction l with
  | nil =>
    simp only [insertKey, lookupKey]
    by_cases h : k = j
    · subst h
      simp
    · have h₁ : ¬j = k := fun hh => h hh.symm
      rw [if_neg h, if_neg h₁]
  | cons hd tl ih =>
    obtain ⟨k₁, v₁⟩ := hd
    by_cases h₁ : k₁ = k
    · subst h₁
      simp only [insertKey, if_pos rfl, lookupKey]
      by_cases h₂ : k₁ = j
      · subst h₂
        simp
      · have h₂s : ¬j = k₁ := fun hh => h₂ hh.symm
        rw [if_neg h₂, if_neg h₂s, if_neg h₂]
    · simp only [insertKey, if_neg h₁, lookupKey]
      by_cases h₂ : k₁ = j
      · subst h₂
        have h₁s : ¬k₁ = k := h₁
        simp [h₁s]
      · rw [if_neg h₂, ih, if_neg h₂]

/-- Fuel-bounded computation of decimal digits, most significant first
(structural recursion so that concrete values reduce in the kernel). -/
def decDigitsAux : Nat → Nat → List Nat
  | 0, _ => []
  | fuel + 1, n => if n < 10 then [n] else decDigitsAux fuel (n / 10) ++ [n % 10]

/-- The decimal digits of a natural number, most significant first;
models the rendering performed by Go's `fmt.Sprintf("%d", n)`. -/
def decDigits (n : Nat) : List Nat :=
  decDigitsAux (n + 1) n

/-- Value of a most-significant-first digit list. -/
def ofDigits (l : List Nat) : Nat :=
  l.foldl (fun a d => a * 10 + d) 0

theorem foldl_dec_append (a : Nat) (l : List Nat) (d : Nat) :
    (l ++ [d]).foldl (fun a d => a * 10 + d) a
      = (l.foldl (fun a d => a * 10 + d) a) * 10 + d := by
  simp [List.foldl_append]

theorem ofDigits_decDigitsAux (fuel : Nat) :
    ∀ n, n < fuel → ofDigits (decDigitsAux fuel n) = n := by
  induction fuel with
  | zero => intro n hn; omega
  | succ fuel ih =>
    intro n hn
    rw [decDigitsAux]
    by_cases h : n < 10
    · simp [h, ofDigits]
    · have hdiv : n / 10 < fuel := by
        have hlt : n / 10 < n := Nat.div_lt_self (by omega) (by omega)
        omega
      have hrec := ih (n / 10) hdiv
      have hmod := Nat.div_add_mod n 10
      simp only [h, if_false]
      unfold ofDigits at hrec ⊢
      rw [foldl_dec_append, hrec]
      omega

theorem ofDigits_decDigits (n : Nat) : ofDigits (decDigits n) = n :=
  ofDigits_decDigitsAux (n + 1) n (by omega)

theorem decDigits_injective : Function.Injective decDigits := by
  intro m n h
  have := congrArg ofDigits h
  rwa [ofDigits_decDigits, ofDigits_decDigits] at this

theorem decDigitsAux_lt_ten (fuel : Nat) :
    ∀ n, n < fuel → ∀ d ∈ decDigitsAux fuel n, d < 10 := by
  induction fuel with
  | zero => intro n hn; omega
  | succ fuel ih =>
    intro n hn
    rw [decDigitsAux]
    by_cases h : n < 10
    · simp [h]
    · simp only [h, if_false]
      intro d hd
      rcases List.mem_append.mp hd with h₁ | h₁
      · have hdiv : n / 10 < fuel := by
          have hlt : n / 10 < n := Nat.div_lt_self (by omega) (by omega)
          omega
        exact ih (n / 10) hdiv d h₁
      · simp at h₁
        subst h₁
        exact Nat.mod_lt n (by omega)

theorem decDigits_lt_ten (n : Nat) : ∀ d ∈ decDigits n, d < 10 :=
  decDigitsAux_lt_ten (n + 1) n (by omega)

/-- Decimal digit characters, modelling the characters emitted by `%d`. -/
def digitChar : Nat → Char
  | 0 => '0'
  | 1 => '1'
  | 2 => '2'
  | 3 => '3'
  | 4 => '4'
  | 5 => '5'
  | 6 => '6'
  | 7 => '7'
  | 8 => '8'
  | _ => '9'

theorem digitChar_inj_lt : ∀ a < 10, ∀ b < 10, digitChar a = digitChar b → a = b := by
  decide

theorem map_digitChar_inj (l₁ l₂ : List Nat) (h₁ : ∀ d ∈ l₁, d < 10) (h₂ : ∀ d ∈ l₂, d < 10)
    (h : l₁.map digitChar = l₂.map digitChar) : l₁ = l₂ := by
  induction l₁ generalizing l₂ with
  | nil =>
    cases l₂ with
    | nil => rfl
    | cons b tl => simp at h
  | cons a tl ih =>
    cases l₂ with
    | nil => simp at h
    | cons b tl₂ =>
      simp only [List.map_cons, List.cons.injEq] at h
      have ha : a = b :=
        digitChar_inj_lt a (h₁ a (by simp)) b (h₂ b (by simp)) h.1
      have htl : tl = tl₂ :=
        ih tl₂ (fun d hd => h₁ d (by simp [hd])) (fun d hd => h₂ d (by simp [hd])) h.2
      rw [ha, htl]

/-- Model of `fmt.Sprintf("%d", n)`. -/
def natDec (n : Nat) : String :=
  ⟨(decDigits n).map digitChar⟩

theorem natDec_injective : Function.Injective natDec := by
  intro m n h
  have hdata : (decDigits m).map digitChar = (decDigits n).map digitChar :=
    congrArg String.data h
  exact decDigits_injective
    (map_digitChar_inj _ _ (decDigits_lt_ten m) (decDigits_lt_ten n) hdata)

/-- The modulus of Go's 64-bit integers, 2 to the 64. -/
def uint64Mod : Nat := 18446744073709551616

/-- The sign boundary of Go's `int64`, 2 to the 63: bit patterns at or above
it denote negative values. -/
def int64SignBound : Nat := 9223372036854775808

/-- The `int64` value denoted by an unsigned 64-bit bit pattern
(two's complement). -/
def int64OfBits (n : Nat) : Int :=
  if n < int64SignBound then (n : Int) else (n : Int) - (uint64Mod : Int)

/-- Model of `fmt.Sprintf("%d", i)` for a signed integer. -/
def intDec (i : Int) : String :=
  if i < 0 then "-" ++ natDec i.natAbs else natDec i.toNat

theorem digitChar_ne_dash : ∀ d : Nat, digitChar d ≠ '-'
  | 0 => by decide
  | 1 => by decide
  | 2 => by decide
  | 3 => by decide
  | 4 => by decide
  | 5 => by decide
  | 6 => by decide
  | 7 => by decide
  | 8 => by decide
  | n + 9 => by
    intro h
    rw [show digitChar (n + 9) = '9' from rfl] at h
    exact absurd h (by decide)

theorem decDigits_ne_nil (n : Nat) : decDigits n ≠ [] := by
  unfold decDigits decDigitsAux
  split <;> simp

theorem dash_append_ne_natDec (m n : Nat) : "-" ++ natDec m ≠ natDec n := by
  intro h
  have hd := congrArg String.data h
  simp only [String.data_append] at hd
  cases hdg : decDigits n with
  | nil => exact decDigits_ne_nil n hdg
  | cons d ds =>
    rw [show (natDec n).data = (decDigits n).map digitChar from rfl, hdg] at hd
    simp only [List.map_cons, List.cons_append, List.nil_append, List.cons.injEq] at hd
    exact digitChar_ne_dash d hd.1.symm

theorem intDec_injective : Function.Injective intDec := by
  intro a b h
  unfold intDec at h
  by_cases ha : a < 0 <;> by_cases hb : b < 0
  · rw [if_pos ha, if_pos hb] at h
    have hd := congrArg String.data h
    simp only [String.data_append] at hd
    have hn : natDec a.natAbs = natDec b.natAbs :=
      congrArg String.mk (List.append_cancel_left hd)
    have := natDec_injective hn
    omega
  · rw [if_pos ha, if_neg hb] at h
    exact absurd h (dash_append_ne_natDec _ _)
  · rw [if_neg ha, if_pos hb] at h
    exact absurd h.symm (dash_append_ne_natDec _ _)
  · rw [if_neg ha, if_neg hb] at h
    have := natDec_injective h
    omega

/-- Model of `fmt.Sprintf("sdk-ctrl-%d", n)`, the id format assigned by
SendRequest; the argument is the signed value of the `int64` counter. -/
def sdkCtrlId (i : Int) : String :=
  "sdk-ctrl-" ++ intDec i

theorem sdkCtrlId_injective : Function.Injective sdkCtrlId := by
  intro a b h
  apply intDec_injective
  have hdata := congrArg String.data h
  simp only [sdkCtrlId, String.data_append] at hdata
  exact congrArg String.mk (List.append_cancel_left hdata)

/-!
Control Protocol Correlator — embedding of `control_protocol.go`.

Channels are explicit: each of the two capacity-one channels of a
`PendingControlResponse` becomes a buffer slot plus a closed flag.  The Go
`pendingResponses` map holds pointers to records; a record survives deletion
from the map as long as a blocked `SendRequest` still references it.  The
model therefore splits the map into `heap` (every record ever created, keyed
by its id — ids are unique within a correlator instance, so they serve as
addresses) and `table` (the ids currently present in the map).
-/

/-- Go `ControlRequestType` constants (`control_protocol.go` lines 13-20). -/
inductive ControlRequestType where
  | initCtrl
  | canUseTool
  | setPermissionMode
  | setModel
  | interrupt
  | rewindFiles
  deriving DecidableEq, Repr

/-- Go `ControlResponseType` constants. -/
inductive ControlResponseType where
  | success
  | error
  deriving DecidableEq, Repr

/-- Go `ControlResponseError` struct. -/
structure ControlResponseError where
  message : String
  code : String
  deriving DecidableEq, Repr

/-- Go `ControlRequest` struct (`data` values abstracted into `GoMap`). -/
structure ControlRequest where
  id : String
  subtype : ControlRequestType
  data : GoMap
  deriving DecidableEq, Repr

/-- Go `ControlResponse` struct. -/
structure ControlResponse where
  id : String
  subtype : ControlResponseType
  data : GoMap
  error : Option ControlResponseError
  deriving DecidableEq, Repr

/-- Go `PendingControlResponse`: `ResponseChan chan *ControlResponse` (capacity 1)
is modelled by `respBuf`/`respClosed`, `TimeoutChan chan struct\x7b\x7d` (capacity 1)
by `timeoutBuf`/`timeoutClosed`, and the `Done` flag by `done`. -/
structure PendingControlResponse where
  respBuf : Option ControlResponse
  respClosed : Bool
  timeoutBuf : Bool
  timeoutClosed : Bool
  done : Bool
  deriving DecidableEq, Repr

/-- The record created at `control_protocol.go` lines 135-138: both channels
empty and open, `Done` false. -/
def freshPending : PendingControlResponse :=
  { respBuf := none, respClosed := false, timeoutBuf := false
    timeoutClosed := false, done := false }

/-- State of a `controlProtocol` instance: the `requestID` counter (a Go
`int64`, carried as its unsigned 64-bit bit pattern so that `requestID++`
wraps at `uint64Mod`), the records (`heap`, by id) with the set of ids
currently in the `pendingResponses` map (`table`), and the requests
successfully handed to the transport (`sent`). -/
structure CtrlState where
  requestID : Nat
  heap : List (String × PendingControlResponse)
  table : List String
  sent : List ControlRequest
  deriving DecidableEq, Repr

/-- `NewControlProtocol`: counter 0, empty pending map. -/
def newControlProtocol : CtrlState :=
  { requestID := 0, heap := [], table := [], sent := [] }

/-- The errors produced by the correlator, one constructor per `fmt.Errorf`
site in `control_protocol.go`. -/
inductive CtrlError where
  /-- "control protocol not supported by transport" (line 123) -/
  | unsupported
  /-- "transport does not support control requests" (line 148) -/
  | notControlTransport
  /-- "failed to send control request: %w" (line 153) -/
  | sendFailed
  /-- "control request failed: %s" (line 163) -/
  | requestFailed (message : String)
  /-- "control request timeout after 30 seconds" (line 168) -/
  | timeout
  /-- "context cancelled while waiting for control response" (line 171) -/
  | contextCancelled
  /-- "received response for unknown request ID: %s" (line 211) -/
  | unknownRequest (id : String)
  /-- "response already processed for request ID: %s" (line 218) -/
  | alreadyHandled (id : String)
  deriving DecidableEq, Repr

/-- The transport seen from the correlator: whether the Go type assertion
`transport.(ControlRequestTransport)` succeeds, what
`SupportsControlRequests()` reports, and whether `SendControlRequest`
returns nil. -/
structure TransportModel where
  supportsIface : Bool
  supportsCtrl : Bool
  sendOk : Bool
  deriving DecidableEq, Repr

/-- `HasControlSupport` (lines 194-202): type assertion, then
`SupportsControlRequests()`. -/
def HasControlSupport (tm : TransportModel) : Bool :=
  tm.supportsIface && tm.supportsCtrl

/-- `cleanupPendingResponse` (lines 259-270): if the id is present, close both
channels unless the record is done, then delete the map entry. -/
def cleanupPendingResponse (requestID : String) (s : CtrlState) : CtrlState :=
  if requestID ∈ s.table then
    match lookupKey requestID s.heap with
    | some p =>
      let heap' := if p.done then s.heap
        else insertKey requestID { p with respClosed := true, timeoutClosed := true } s.heap
      { s with heap := heap', table := s.table.erase requestID }
    | none => { s with table := s.table.erase requestID }
  else s

/-- The registration-and-dispatch phase of `SendRequest` (lines 121-154):
support check, id assignment, pending registration, transport dispatch with
cleanup on failure.  Returns the assigned id on success. -/
def sendRequestStart (tm : TransportModel) (req : ControlRequest) (s : CtrlState) :
    CtrlState × Except CtrlError String :=
  if !(HasControlSupport tm) then (s, .error .unsupported)
  else
    let newCount := (s.requestID + 1) % uint64Mod
    let reqID := sdkCtrlId (int64OfBits newCount)
    let req' := { req with id := reqID }
    let s₁ : CtrlState :=
      { s with requestID := newCount
               heap := insertKey reqID freshPending s.heap
               table := if reqID ∈ s.table then s.table else s.table ++ [reqID] }
    if !tm.supportsIface then (cleanupPendingResponse reqID s₁, .error .notControlTransport)
    else if !tm.sendOk then (cleanupPendingResponse reqID s₁, .error .sendFailed)
    else ({ s₁ with sent := s₁.sent ++ [req'] }, .ok reqID)

/-- The record mutation `HandleControlResponse` performs on its delivery
path: mark done and close both channels (lines 221-223). -/
def markHandled (p : PendingControlResponse) : PendingControlResponse :=
  { p with done := true, respClosed := true, timeoutClosed := true }

/-- Result of one `HandleControlResponse` call.  `ret` is a normal return
with the Go error value; `deadlock` marks a call that never returns: its
delivery path holds `pendingResponsesMu` (locked at line 214) when it calls
`cleanupPendingResponse`, which tries to `Lock` the same non-reentrant mutex
again at line 260 and blocks forever.  The carried state is the state at the
moment of blocking. -/
inductive HandleOutcome where
  | ret (s : CtrlState) (err : Option CtrlError)
  | deadlock (s : CtrlState)
  deriving DecidableEq, Repr

/-- The correlator state carried by a `HandleOutcome`. -/
def HandleOutcome.state : HandleOutcome → CtrlState
  | .ret s _ => s
  | .deadlock s => s

/-- `HandleControlResponse` (lines 204-227): look up the pending entry by the
response id; unknown ids and already-done entries fail (returning while the
deferred unlock releases the mutex); on the delivery path the record is
marked done and both its channels are closed (lines 221-223 — note that the
response itself is never sent into `ResponseChan`), and then the call
self-deadlocks at line 225: `cleanupPendingResponse` re-acquires the
already-held non-reentrant `pendingResponsesMu`, so the call never returns
and the map entry is never removed. -/
def HandleControlResponse (resp : ControlResponse) (s : CtrlState) : HandleOutcome :=
  if resp.id ∈ s.table then
    match lookupKey resp.id s.heap with
    | some p =>
      if p.done then .ret s (some (.alreadyHandled resp.id))
      else .deadlock { s with heap := insertKey resp.id (markHandled p) s.heap }
    | none => .ret s (some (.unknownRequest resp.id))
  else .ret s (some (.unknownRequest resp.id))

/-- The three arms of the `select` at lines 160-172. -/
inductive WakeEvent where
  | responseChan
  | timeoutChan
  | ctxDone
  deriving DecidableEq, Repr

/-- A receive on `pending.ResponseChan` can proceed iff a value is buffered or
the channel is closed. -/
def respChanReady (p : PendingControlResponse) : Bool :=
  p.respBuf.isSome || p.respClosed

/-- A receive on `pending.TimeoutChan` can proceed iff a value is buffered or
the channel is closed.  Nothing in the repository ever sends into this
channel, so `timeoutBuf` is false in every reachable record. -/
def timeoutChanReady (p : PendingControlResponse) : Bool :=
  p.timeoutBuf || p.timeoutClosed

/-- Result of the wait phase of `SendRequest`.  `nilDeref` marks the branch
where the receive from a closed, empty `ResponseChan` yields a nil
`*ControlResponse` and line 162 dereferences it (`response.Error`). -/
inductive WaitOutcome where
  | ok (resp : ControlResponse)
  | err (e : CtrlError)
  | nilDeref
  deriving DecidableEq, Repr

/-- The wait phase of `SendRequest` (lines 156-172), as a function of which
select arm fires.  The `ctxDone` arm covers both expiry of the internal
30-second `timeoutCtx` and cancellation of the caller context, since
`context.WithTimeout(ctx, 30*time.Second)` merges the two into one `Done`
signal; both produce the same "context cancelled" error. -/
def sendRequestWait (p : PendingControlResponse) : WakeEvent → WaitOutcome
  | .responseChan =>
    match p.respBuf with
    | some r =>
      match r.error with
      | some e => .err (.requestFailed e.message)
      | none => .ok r
    | none => .nilDeref
  | .timeoutChan => .err .timeout
  | .ctxDone => .err .contextCancelled

/-!
Hook Registry — embedding of the shared hooks file
(`internal/shared`, `src/unnamed/part_001`).
-/

/-- Go `HookEventName` constants. -/
inductive HookEventName where
  | preToolUse
  | postToolUse
  | userPromptSubmit
  | stop
  | subagentStop
  | preCompact
  deriving DecidableEq, Repr

/-- Go `HookInput` (the fields read by the modelled operations; the remaining
optional fields of the Go struct are payload never inspected by the registry). -/
structure HookInput where
  hookEventName : HookEventName
  sessionID : String
  toolName : Option String
  toolInput : GoMap
  prompt : Option String

/-- Go `HookContext`. -/
structure HookContext where
  additionalData : GoMap

/-- Result of a Go hook callback `(map[string]any, error)`: an error, or an
optional (possibly nil) output map. -/
abbrev HookResult := Except String (Option GoMap)

/-- Go `HookCallback` signature (the Go `ctx` argument carries no data the
registry inspects and is dropped). -/
abbrev HookCallback := HookInput → Option String → HookContext → HookResult

/-- Go `HookMatcher` (the `Timeout` field is never read by any registry
operation and is not carried). -/
structure HookMatcher where
  matcher : Option String
  hooks : List HookCallback

/-- Go `HookRegistry`: the `callbacks` map and the atomic `callbackIDSeq`. -/
structure HookRegistry where
  callbacks : List (String × HookCallback)
  callbackIDSeq : Nat

/-- `NewHookRegistry`. -/
def NewHookRegistry : HookRegistry :=
  { callbacks := [], callbackIDSeq := 0 }

/-- `GetCallback` (lines 141-145). -/
def GetCallback (r : HookRegistry) (id : String) : Option HookCallback :=
  lookupKey id r.callbacks

/-- `InvokeCallback` (lines 148-158): nil callback lookup fails, otherwise the
callback is invoked directly. -/
def InvokeCallback (r : HookRegistry) (id : String) (input : HookInput)
    (toolUseID : Option String) (hookCtx : HookContext) : HookResult :=
  match GetCallback r id with
  | none => .error ("hook callback not found: " ++ id)
  | some cb => cb input toolUseID hookCtx

/-- `Register` (lines 177-191): a nil matcher or empty hook list yields an
empty id; otherwise only `matcher.Hooks[0]` is stored, under the id
`fmt.Sprintf("hook_%d", seq+1)`. -/
def Register (r : HookRegistry) (_eventName : HookEventName)
    (matcher : Option HookMatcher) : String × HookRegistry :=
  match matcher with
  | none => ("", r)
  | some m =>
    match m.hooks with
    | [] => ("", r)
    | first :: _ =>
      let seq := r.callbackIDSeq + 1
      let callbackID := "hook_" ++ natDec seq
      (callbackID, { callbacks := insertKey callbackID first r.callbacks, callbackIDSeq := seq })

/-- The loop body of `Execute` (lines 209-218): every stored callback is run
in turn (no event-kind or pattern filter is applied); a callback error aborts
dispatch, the first non-nil result is returned, and nil results fall through.
The Go code ranges over a map in unspecified order; the model fixes the
association-list order. -/
def executeLoop (input : HookInput) (toolUseID : Option String) (hookCtx : HookContext) :
    List (String × HookCallback) → Except String GoMap
  | [] => .ok [("continue", .bool true)]
  | (id, cb) :: rest =>
    match cb input toolUseID hookCtx with
    | .error e => .error ("hook " ++ id ++ " failed: " ++ e)
    | .ok (some result) => .ok result
    | .ok none => executeLoop input toolUseID hookCtx rest

/-- `Execute` (lines 203-221).  The `eventName` parameter is accepted and
ignored, exactly as in the source. -/
def Execute (r : HookRegistry) (_eventName : HookEventName) (input : HookInput)
    (toolUseID : Option String) (hookCtx : HookContext) : Except String GoMap :=
  executeLoop input toolUseID hookCtx r.callbacks

/-!
Model of the Go standard-library regular expressions used by
`MatchesPattern`, for the pattern fragment the hook matchers use: literal
characters, alternation `|`, grouping `(...)`, and whole-pattern anchors
`^`/`$`.  `regexpCompile` models `regexp.Compile` on this fragment —
patterns using other metacharacters are outside the model and reported as
compile failures — and `MatchString` models unanchored substring search.
-/

/-- Regular-expression abstract syntax for the modelled fragment (`emp`, the
empty language, is produced only by derivatives, never by the parser). -/
inductive Regex where
  | emp
  | eps
  | lit (c : Char)
  | alt (r₁ r₂ : Regex)
  | seq (r₁ r₂ : Regex)
  deriving DecidableEq, Repr

/-- Characters with special meaning in the modelled regex fragment. -/
def isRegexMeta (c : Char) : Bool :=
  c = '|' || c = '(' || c = ')' || c = '^' || c = '$' || c = '*' || c = '+' ||
  c = '?' || c = '[' || c = ']' || c = '\\' || c = '.'

mutual

/-- Parse an alternation `seq ('|' alt)?`. -/
def parseAlt : Nat → List Char → Option (Regex × List Char)
  | 0, _ => none
  | fuel + 1, cs =>
    match parseSeq fuel cs with
    | none => none
    | some (r, rest) =>
      match rest with
      | '|' :: rest₁ =>
        match parseAlt fuel rest₁ with
        | some (r₁, rest₂) => some (.alt r r₁, rest₂)
        | none => none
      | _ => some (r, rest)

/-- Parse a (possibly empty) concatenation of atoms, stopping at `|`, `)` or
the end of the pattern. -/
def parseSeq : Nat → List Char → Option (Regex × List Char)
  | 0, _ => none
  | fuel + 1, cs =>
    match cs with
    | [] => some (.eps, [])
    | c :: _ =>
      if c = '|' ∨ c = ')' then some (.eps, cs)
      else
        match parseAtom fuel cs with
        | none => none
        | some (r, rest) =>
          match parseSeq fuel rest with
          | some (r₁, rest₁) => some (.seq r r₁, rest₁)
          | none => none

/-- Parse one atom: a parenthesised group or a literal character. -/
def parseAtom : Nat → List Char → Option (Regex × List Char)
  | 0, _ => none
  | fuel + 1, cs =>
    match cs with
    | [] => none
    | '(' :: rest =>
      match parseAlt fuel rest with
      | some (r, ')' :: rest₁) => some (r, rest₁)
      | _ => none
    | c :: rest =>
      if isRegexMeta c then none else some (.lit c, rest)

end

/-- A compiled pattern: inner expression plus whole-pattern anchor flags. -/
structure CompiledRegex where
  startAnchor : Bool
  endAnchor : Bool
  re : Regex
  deriving DecidableEq, Repr

/-- Model of `regexp.Compile` on the supported fragment: strip a leading `^`
and a trailing `$`, then parse the remainder; anything unparsed is a
compilation failure. -/
def regexpCompile (pattern : String) : Option CompiledRegex :=
  let cs := pattern.data
  let (sa, cs₁) :=
    match cs with
    | '^' :: rest => (true, rest)
    | _ => (false, cs)
  let (ea, cs₂) :=
    if cs₁ ≠ [] ∧ cs₁.getLast? = some '$' then (true, cs₁.dropLast) else (false, cs₁)
  match parseAlt (2 * cs₂.length + 4) cs₂ with
  | some (r, []) => some { startAnchor := sa, endAnchor := ea, re := r }
  | _ => none

/-- Whether a regex accepts the empty string. -/
def nullable : Regex → Bool
  | .emp => false
  | .eps => true
  | .lit _ => false
  | .alt r₁ r₂ => nullable r₁ || nullable r₂
  | .seq r₁ r₂ => nullable r₁ && nullable r₂

/-- Brzozowski derivative of a regex by one character. -/
def deriv (r : Regex) (c : Char) : Regex :=
  match r with
  | .emp => .emp
  | .eps => .emp
  | .lit c₁ => if c₁ = c then .eps else .emp
  | .alt r₁ r₂ => .alt (deriv r₁ c) (deriv r₂ c)
  | .seq r₁ r₂ =>
    if nullable r₁ then .alt (.seq (deriv r₁ c) r₂) (deriv r₂ c)
    else .seq (deriv r₁ c) r₂

/-- Whole-string match via derivatives. -/
def matchFull (r : Regex) (cs : List Char) : Bool :=
  nullable (cs.foldl deriv r)

/-- Whether the regex matches some prefix of `cs`. -/
def matchSomePrefix (r : Regex) (cs : List Char) : Bool :=
  (List.range (cs.length + 1)).any (fun i => matchFull r (cs.take i))

/-- Model of `Regexp.MatchString`: unanchored search, specialised by the
whole-pattern anchor flags. -/
def MatchString (cr : CompiledRegex) (s : String) : Bool :=
  let cs := s.data
  match cr.startAnchor, cr.endAnchor with
  | true, true => matchFull cr.re cs
  | true, false => matchSomePrefix cr.re cs
  | false, true => (List.range (cs.length + 1)).any (fun i => matchFull cr.re (cs.drop i))
  | false, false => (List.range (cs.length + 1)).any (fun i => matchSomePrefix cr.re (cs.drop i))

/-- `MatchesPattern` (part_001 lines 161-174): a nil pattern matches every
name; otherwise compile as a regex and test, falling back to exact string
equality only when compilation fails. -/
def MatchesPattern (pattern : Option String) (toolName : String) : Bool :=
  match pattern with
  | none => true
  | some p =>
    match regexpCompile p with
    | none => p == toolName
    | some re => MatchString re toolName

/-!
Permission Gate — embedding of the permission-callback manager
(`permission_callbacks_test.go`, implementation half).

`CheckPermission` runs the callback on a separate goroutine that delivers
into a capacity-one result channel or a capacity-one error channel (a panic
is recovered and delivered as an error), then selects over result, error and
the 5-second `timeoutCtx`.  The model makes the callback's behaviour explicit
data (`CallbackBehavior`), the goroutine a function from behaviour to channel
contents, and the timing race a boolean: whether the callback delivered
before the bounded sub-context fired.
-/

/-- Go `PermissionBehavior` constants. -/
inductive PermissionBehavior where
  | allow
  | deny
  | ask
  deriving DecidableEq, Repr

/-- Go `PermissionUpdateDestination` constants. -/
inductive PermissionUpdateDestination where
  | userSettings
  | projectSettings
  | localSettings
  | sessionSettings
  deriving DecidableEq, Repr

/-- Go `PermissionRuleValue`. -/
structure PermissionRuleValue where
  toolName : String
  ruleContent : String
  deriving DecidableEq, Repr

/-- Go `PermissionUpdate`. -/
structure PermissionUpdate where
  type : PermissionUpdateDestination
  rules : List PermissionRuleValue
  behavior : Option PermissionBehavior
  directories : List String
  deriving DecidableEq, Repr

/-- Go `ToolPermissionContext` (the opaque `Signal` field is dropped). -/
structure ToolPermissionContext where
  suggestions : List PermissionUpdate
  deriving DecidableEq, Repr

/-- Go `PermissionResult`: the interface with its two implementations
`PermissionResultAllow` and `PermissionResultDeny`. -/
inductive PermissionResult where
  | allow (updatedInput : Option GoMap) (updatedPermissions : List PermissionUpdate)
  | deny (message : String) (interrupt : Bool)
  deriving DecidableEq, Repr

/-- `NewPermissionResultAllow`. -/
def NewPermissionResultAllow : PermissionResult :=
  .allow none []

/-- `NewPermissionResultDeny`. -/
def NewPermissionResultDeny (message : String) : PermissionResult :=
  .deny message false

/-- The `Behavior()` method of both implementations. -/
def PermissionResult.behavior : PermissionResult → PermissionBehavior
  | .allow _ _ => .allow
  | .deny _ _ => .deny

/-- Possible behaviours of one invocation of a user permission callback:
return a result, return an error, panic with a value, or fail to complete
within the bounded wait. -/
inductive CallbackBehavior where
  | ret (r : PermissionResult)
  | err (message : String)
  | panicked (value : String)
  | hang

/-- Model of a `CanUseToolFunc` value: the behaviour it exhibits for given
arguments. -/
abbrev CanUseToolFunc := String → GoMap → ToolPermissionContext → CallbackBehavior

/-- Contents of the two capacity-one hand-off channels of `CheckPermission`. -/
structure CallbackChans where
  resBuf : Option PermissionResult
  errBuf : Option String

/-- The goroutine body of `CheckPermission` (lines 374-397 of the
implementation): a returned error goes to `errChan`, a result to
`resultChan`, and a recovered panic value goes to `errChan` as
`"callback panic: %v"`; a hanging callback delivers nothing. -/
def runCallbackGoroutine : CallbackBehavior → CallbackChans
  | .ret r => { resBuf := some r, errBuf := none }
  | .err m => { resBuf := none, errBuf := some m }
  | .panicked v => { resBuf := none, errBuf := some ("callback panic: " ++ v) }
  | .hang => { resBuf := none, errBuf := none }

/-- `CheckPermission` (lines 361-407 of the implementation).  `deliveredInTime`
states whether the goroutine's hand-off was available before the 5-second
`timeoutCtx` fired; the Go error return is modelled as `Option String`. -/
def CheckPermission (callback : Option CanUseToolFunc) (toolName : String)
    (input : GoMap) (permContext : ToolPermissionContext) (deliveredInTime : Bool) :
    PermissionResult × Option String :=
  match callback with
  | none => (NewPermissionResultAllow, none)
  | some cb =>
    if deliveredInTime then
      let ch := runCallbackGoroutine (cb toolName input permContext)
      match ch.resBuf with
      | some r => (r, none)
      | none =>
        match ch.errBuf with
        | some e => (NewPermissionResultDeny "Callback failed",
                     some ("permission callback failed: " ++ e))
        | none => (NewPermissionResultDeny "Callback timeout", none)
    else (NewPermissionResultDeny "Callback timeout", none)

/-!
Traces of correlator operations, used to state lifetime-wide invariants of
the assigned request ids.  A trace-level state carries a `wedged` flag: once
one `HandleControlResponse` has deadlocked on its delivery path it holds
`pendingResponsesMu` forever, so every later operation needing that mutex
blocks.  A blocked `SendRequest` still passes the support check and still
assigns an id — the counter is guarded by the separate `requestIDMu`
(lines 127-130) and is incremented before the pending-map lock at line 140 —
but its registration, dispatch and wait never happen.
-/

/-- One sequential operation against a correlator instance. -/
inductive CtrlStep where
  | send (tm : TransportModel) (req : ControlRequest)
  | handle (resp : ControlResponse)
  | cleanup (id : String)

/-- Trace-level state: the correlator state plus whether some call is
deadlocked while holding `pendingResponsesMu`. -/
structure RunState where
  ctrl : CtrlState
  wedged : Bool

/-- A fresh correlator with no deadlocked call. -/
def initialRun : RunState :=
  { ctrl := newControlProtocol, wedged := false }

/-- State transition of one operation.  On a wedged correlator a `send` still
increments the counter and assigns an id before blocking at the pending-map
lock; `handle` and `cleanup` block before any state change. -/
def ctrlStep (s : RunState) : CtrlStep → RunState
  | .send tm req =>
    if s.wedged then
      if HasControlSupport tm then
        { s with ctrl := { s.ctrl with requestID := (s.ctrl.requestID + 1) % uint64Mod } }
      else s
    else { s with ctrl := (sendRequestStart tm req s.ctrl).1 }
  | .handle resp =>
    if s.wedged then s
    else
      match HandleControlResponse resp s.ctrl with
      | .ret s₁ _ => { s with ctrl := s₁ }
      | .deadlock s₁ => { ctrl := s₁, wedged := true }
  | .cleanup id =>
    if s.wedged then s else { s with ctrl := cleanupPendingResponse id s.ctrl }

/-- How many operations of a trace assign an id: the `send` steps whose
transport reports control support (assignment precedes the pending-map lock,
so wedging does not matter). -/
def countAssigned : List CtrlStep → Nat
  | [] => 0
  | .send tm _ :: rest => (if HasControlSupport tm then 1 else 0) + countAssigned rest
  | .handle _ :: rest => countAssigned rest
  | .cleanup _ :: rest => countAssigned rest

/-- The signed numeric suffixes of the ids assigned by the `send` operations
of a trace. -/
def assignedSuffixes (s : RunState) : List CtrlStep → List Int
  | [] => []
  | .send tm req :: rest =>
    if HasControlSupport tm then
      int64OfBits ((s.ctrl.requestID + 1) % uint64Mod)
        :: assignedSuffixes (ctrlStep s (.send tm req)) rest
    else assignedSuffixes (ctrlStep s (.send tm req)) rest
  | .handle resp :: rest => assignedSuffixes (ctrlStep s (.handle resp)) rest
  | .cleanup id :: rest => assignedSuffixes (ctrlStep s (.cleanup id)) rest

/-- The ids assigned by the `send` operations of a trace. -/
def assignedIds (s : RunState) (steps : List CtrlStep) : List String :=
  (assignedSuffixes s steps).map sdkCtrlId

/-- Running a whole trace. -/
def runTrace (s : RunState) : List CtrlStep → RunState
  | [] => s
  | st :: rest => runTrace (ctrlStep s st) rest

theorem runTrace_nil (s : RunState) : runTrace s [] = s := rfl

theorem runTrace_cons (s : RunState) (st : CtrlStep) (rest : List CtrlStep) :
    runTrace s (st :: rest) = runTrace (ctrlStep s st) rest := rfl

theorem cleanup_requestID (id : String) (s : CtrlState) :
    (cleanupPendingResponse id s).requestID = s.requestID := by
  by_cases h : id ∈ s.table
  · simp only [cleanupPendingResponse, if_pos h]
    cases hl : lookupKey id s.heap <;> simp
  · simp [cleanupPendingResponse, h]

theorem handle_state_requestID (resp : ControlResponse) (s : CtrlState) :
    (HandleControlResponse resp s).state.requestID = s.requestID := by
  by_cases h : resp.id ∈ s.table
  · simp only [HandleControlResponse, if_pos h]
    cases hl : lookupKey resp.id s.heap with
    | none => simp [HandleOutcome.state]
    | some p =>
      by_cases hd : p.done
      · simp [hd, HandleOutcome.state]
      · simp [hd, HandleOutcome.state]
  · simp [HandleControlResponse, h, HandleOutcome.state]

theorem sendStart_requestID_support (tm : TransportModel) (req : ControlRequest)
    (s : CtrlState) (h : HasControlSupport tm = true) :
    (sendRequestStart tm req s).1.requestID = (s.requestID + 1) % uint64Mod := by
  simp only [sendRequestStart, h, Bool.not_true, Bool.false_eq_true, if_false]
  by_cases h₁ : tm.supportsIface
  · by_cases h₂ : tm.sendOk
    · simp [h₁, h₂]
    · simp [h₁, h₂, cleanup_requestID]
  · simp [h₁, cleanup_requestID]

theorem sendStart_requestID_unsupported (tm : TransportModel) (req : ControlRequest)
    (s : CtrlState) (h : HasControlSupport tm = false) :
    sendRequestStart tm req s = (s, .error .unsupported) := by
  simp [sendRequestStart, h]

theorem ctrlStep_send_requestID (s : RunState) (tm : TransportModel) (req : ControlRequest)
    (h : HasControlSupport tm = true) :
    (ctrlStep s (.send tm req)).ctrl.requestID = (s.ctrl.requestID + 1) % uint64Mod := by
  by_cases hw : s.wedged
  · simp [ctrlStep, hw, h]
  · simp [ctrlStep, hw, sendStart_requestID_support tm req s.ctrl h]

theorem ctrlStep_send_requestID_unsupported (s : RunState) (tm : TransportModel)
    (req : ControlRequest) (h : HasControlSupport tm = false) :
    (ctrlStep s (.send tm req)).ctrl.requestID = s.ctrl.requestID := by
  by_cases hw : s.wedged
  · simp [ctrlStep, hw, h]
  · simp [ctrlStep, hw, sendStart_requestID_unsupported tm req s.ctrl h]

theorem ctrlStep_handle_requestID (s : RunState) (resp : ControlResponse) :
    (ctrlStep s (.handle resp)).ctrl.requestID = s.ctrl.requestID := by
  by_cases hw : s.wedged
  · simp [ctrlStep, hw]
  · simp only [ctrlStep, hw, Bool.false_eq_true, if_false]
    have hh := handle_state_requestID resp s.ctrl
    cases hc : HandleControlResponse resp s.ctrl with
    | ret s₁ e =>
      rw [hc] at hh
      simpa [HandleOutcome.state] using hh
    | deadlock s₁ =>
      rw [hc] at hh
      simpa [HandleOutcome.state] using hh

theorem ctrlStep_cleanup_requestID (s : RunState) (id : String) :
    (ctrlStep s (.cleanup id)).ctrl.requestID = s.ctrl.requestID := by
  by_cases hw : s.wedged
  · simp [ctrlStep, hw]
  · simp [ctrlStep, hw, cleanup_requestID]

theorem int64SignBound_lt_uint64Mod : int64SignBound < uint64Mod := by decide

/-- On traces that assign fewer ids than the remaining headroom below the
int64 sign boundary, every assigned suffix exceeds the starting counter and
the suffix list is strictly increasing. -/
theorem assignedSuffixes_nowrap (steps : List CtrlStep) :
    ∀ s : RunState, s.ctrl.requestID + countAssigned steps < int64SignBound →
      (∀ x ∈ assignedSuffixes s steps, (s.ctrl.requestID : Int) < x) ∧
      List.Pairwise (· < ·) (assignedSuffixes s steps) := by
  induction steps with
  | nil =>
    intro s _
    exact ⟨by simp [assignedSuffixes], by simp [assignedSuffixes]⟩
  | cons st rest ih =>
    intro s h
    cases st with
    | send tm req =>
      by_cases hs : HasControlSupport tm
      · have hcount : countAssigned (CtrlStep.send tm req :: rest)
            = 1 + countAssigned rest := by
          simp [countAssigned, hs]
        rw [hcount] at h
        have hlt : s.ctrl.requestID + 1 < int64SignBound := by omega
        have hmod : (s.ctrl.requestID + 1) % uint64Mod = s.ctrl.requestID + 1 := by
          have hb := int64SignBound_lt_uint64Mod
          exact Nat.mod_eq_of_lt (by omega)
        have hstep : (ctrlStep s (.send tm req)).ctrl.requestID = s.ctrl.requestID + 1 := by
          rw [ctrlStep_send_requestID s tm req hs, hmod]
        have hsuffix : int64OfBits ((s.ctrl.requestID + 1) % uint64Mod)
            = ((s.ctrl.requestID + 1 : Nat) : Int) := by
          rw [hmod]
          unfold int64OfBits
          rw [if_pos hlt]
        have hrec := ih (ctrlStep s (.send tm req)) (by rw [hstep]; omega)
        rw [assignedSuffixes, if_pos hs]
        constructor
        · intro x hx
          rcases List.mem_cons.mp hx with hx | hx
          · subst hx
            rw [hsuffix]
            exact_mod_cast Nat.lt_succ_self _
          · have hx₁ := hrec.1 x hx
            rw [hstep] at hx₁
            have : ((s.ctrl.requestID + 1 : Nat) : Int) = (s.ctrl.requestID : Int) + 1 := by
              push_cast
              ring
            omega
        · refine List.pairwise_cons.mpr ⟨?_, hrec.2⟩
          intro b hb
          have hb₁ := hrec.1 b hb
          rw [hstep] at hb₁
          rw [hsuffix]
          exact hb₁
      · have hs₀ : HasControlSupport tm = false := by
          revert hs
          cases HasControlSupport tm <;> simp
        have hcount : countAssigned (CtrlStep.send tm req :: rest) = countAssigned rest := by
          simp [countAssigned, hs₀]
        rw [hcount] at h
        have hstep := ctrlStep_send_requestID_unsupported s tm req hs₀
        have hrec := ih (ctrlStep s (.send tm req)) (by rw [hstep]; omega)
        rw [assignedSuffixes, if_neg hs]
        refine ⟨fun x hx => ?_, hrec.2⟩
        have hx₁ := hrec.1 x hx
        rwa [hstep] at hx₁
    | handle resp =>
      have hcount : countAssigned (CtrlStep.handle resp :: rest) = countAssigned rest := by
        simp [countAssigned]
      rw [hcount] at h
      have hstep := ctrlStep_handle_requestID s resp
      have hrec := ih (ctrlStep s (.handle resp)) (by rw [hstep]; omega)
      rw [assignedSuffixes]
      refine ⟨fun x hx => ?_, hrec.2⟩
      have hx₁ := hrec.1 x hx
      rwa [hstep] at hx₁
    | cleanup id =>
      have hcount : countAssigned (CtrlStep.cleanup id :: rest) = countAssigned rest := by
        simp [countAssigned]
      rw [hcount] at h
      have hstep := ctrlStep_cleanup_requestID s id
      have hrec := ih (ctrlStep s (.cleanup id)) (by rw [hstep]; omega)
      rw [assignedSuffixes]
      refine ⟨fun x hx => ?_, hrec.2⟩
      have hx₁ := hrec.1 x hx
      rwa [hstep] at hx₁

/-- `assignedSuffixes` distributes over trace concatenation. -/
theorem assignedSuffixes_append (t₁ : List CtrlStep) :
    ∀ (s : RunState) (t₂ : List CtrlStep),
      assignedSuffixes s (t₁ ++ t₂)
        = assignedSuffixes s t₁ ++ assignedSuffixes (runTrace s t₁) t₂ := by
  induction t₁ with
  | nil =>
    intro s t₂
    simp [assignedSuffixes, runTrace_nil]
  | cons st rest ih =>
    intro s t₂
    cases st with
    | send tm req =>
      by_cases hs : HasControlSupport tm
      · simp only [List.cons_append, assignedSuffixes, if_pos hs, runTrace_cons,
          List.cons.injEq, true_and]
        exact ih _ _
      · simp only [List.cons_append, assignedSuffixes, if_neg hs, runTrace_cons]
        exact ih _ _
    | handle resp =>
      simp only [List.cons_append, assignedSuffixes, runTrace_cons]
      exact ih _ _
    | cleanup id =>
      simp only [List.cons_append, assignedSuffixes, runTrace_cons]
      exact ih _ _

/-!
Concrete runs used by the counterexample and witness theorems.
-/

deriving instance DecidableEq for Except

/-- A transport with full control support whose sends succeed. -/
def stubTransport : TransportModel := ⟨true, true, true⟩

/-- A transport without control support. -/
def noCtrlTransport : TransportModel := ⟨false, false, true⟩

/-- A control request before id assignment. -/
def sampleReq : ControlRequest := ⟨"", .setModel, []⟩

/-- Correlator state after one successful `SendRequest` registration and
dispatch (id `sdk-ctrl-1` pending). -/
def sAfterSend : CtrlState := (sendRequestStart stubTransport sampleReq newControlProtocol).1

/-- A success response for `sdk-ctrl-1` with no error field. -/
def successResp : ControlResponse := ⟨"sdk-ctrl-1", .success, [], none⟩

/-- Correlator state at the moment the delivery path of
`HandleControlResponse successResp` blocks on its self-deadlock. -/
def sAfterDeliver : CtrlState := (HandleControlResponse successResp sAfterSend).state

/-- The pending record for `sdk-ctrl-1` after the delivery path ran lines
221-223: done, both channels closed, and — decisively — an empty response
buffer. -/
def deliveredPending : PendingControlResponse := ⟨none, true, false, true, true⟩

/-- C1: the claim fails on the code.  After a successful `SendRequest`
dispatch, a matching `HandleControlResponse` marks the record done and
closes `ResponseChan` with an EMPTY buffer — it never sends the response
into the channel (and then deadlocks on its own cleanup) — so no select arm
of the waiting `SendRequest` can produce the response: the response arm
dereferences a nil pointer, the timeout arm reports a spurious timeout, and
the context arm reports cancellation. -/
theorem claude_c1_response_never_delivered :
    (sendRequestStart stubTransport sampleReq newControlProtocol).2 = .ok "sdk-ctrl-1" ∧
    HandleControlResponse successResp sAfterSend = .deadlock sAfterDeliver ∧
    lookupKey "sdk-ctrl-1" sAfterDeliver.heap = some deliveredPending ∧
    deliveredPending.respBuf = none ∧
    sendRequestWait deliveredPending .responseChan = .nilDeref ∧
    sendRequestWait deliveredPending .timeoutChan = .err .timeout ∧
    sendRequestWait deliveredPending .ctxDone = .err .contextCancelled ∧
    sendRequestWait deliveredPending .responseChan ≠ .ok successResp ∧
    sendRequestWait deliveredPending .timeoutChan ≠ .ok successResp ∧
    sendRequestWait deliveredPending .ctxDone ≠ .ok successResp := by
  decide

/-- C2: the claim fails on the code.  The first `HandleControlResponse` for a
registered id never succeeds: after closing the channels it calls
`cleanupPendingResponse`, which re-acquires the already-held non-reentrant
`pendingResponsesMu` and blocks forever, so the call never returns and the
pending entry is never removed (it is still in the table at the moment of
blocking); only the unknown-id path, which returns before taking the write
lock, completes with its unknown-request error. -/
theorem claude_c2_first_call_never_returns :
    HandleControlResponse successResp sAfterSend = .deadlock sAfterDeliver ∧
    "sdk-ctrl-1" ∈ sAfterDeliver.table ∧
    (HandleOutcome.deadlock sAfterDeliver ≠ .ret sAfterDeliver none) ∧
    HandleControlResponse successResp newControlProtocol
      = .ret newControlProtocol (some (.unknownRequest "sdk-ctrl-1")) := by
  decide

/-- C3: the claim fails on the code.  On a freshly registered pending record
(no response ever delivered) neither the response channel nor the timeout
channel can fire — nothing in the repository ever sends into or closes
`TimeoutChan` before delivery — so when the internal 30-second bound elapses
the only live arm is `timeoutCtx.Done()`, which returns the
context-cancelled error, not the timeout error; the internal-timeout and
caller-cancellation outcomes are therefore the same error, not distinct. -/
theorem claude_c3_internal_timeout_misreported :
    lookupKey "sdk-ctrl-1" sAfterSend.heap = some freshPending ∧
    respChanReady freshPending = false ∧
    timeoutChanReady freshPending = false ∧
    sendRequestWait freshPending .ctxDone = .err .contextCancelled ∧
    WaitOutcome.err .contextCancelled ≠ .err .timeout := by
  decide

/-- Two consecutive supported sends. -/
def twoSends : List CtrlStep :=
  [.send stubTransport sampleReq, .send stubTransport sampleReq]

/-- A trace of `n` supported sends. -/
def sendsN (n : Nat) : List CtrlStep :=
  List.replicate n (.send stubTransport sampleReq)

theorem sendsN_succ (n : Nat) :
    sendsN (n + 1) = CtrlStep.send stubTransport sampleReq :: sendsN n := by
  rw [sendsN, sendsN, List.replicate_succ]

theorem runTrace_sendsN_requestID (n : Nat) :
    ∀ s : RunState, s.ctrl.requestID < uint64Mod →
      (runTrace s (sendsN n)).ctrl.requestID = (s.ctrl.requestID + n) % uint64Mod := by
  induction n with
  | zero =>
    intro s h
    simp [sendsN, runTrace_nil, Nat.mod_eq_of_lt h]
  | succ n ih =>
    intro s h
    rw [sendsN_succ, runTrace_cons]
    have hstep := ctrlStep_send_requestID s stubTransport sampleReq rfl
    have hlt : (ctrlStep s (.send stubTransport sampleReq)).ctrl.requestID < uint64Mod := by
      rw [hstep]
      exact Nat.mod_lt _ (by decide)
    rw [ih (ctrlStep s (.send stubTransport sampleReq)) hlt, hstep, Nat.mod_add_mod]
    exact congrArg (· % uint64Mod) (by omega)

/-- The suffixes assigned by two consecutive supported sends, in terms of the
starting counter. -/
theorem assignedSuffixes_two_sends (s : RunState) :
    assignedSuffixes s twoSends
      = [int64OfBits ((s.ctrl.requestID + 1) % uint64Mod),
         int64OfBits (((s.ctrl.requestID + 1) % uint64Mod + 1) % uint64Mod)] := by
  have hsup : HasControlSupport stubTransport = true := rfl
  have hstep := ctrlStep_send_requestID s stubTransport sampleReq hsup
  simp [twoSends, assignedSuffixes, hsup, hstep]

/-- The trace that drives the int64 counter across its sign boundary: from a
fresh correlator, `2^63 - 2` supported sends followed by two more. -/
def wrapTrace : List CtrlStep :=
  sendsN (int64SignBound - 2) ++ twoSends

/-- C6 counterexample: on the full lifetime trace `wrapTrace` the suffixes of
successive assigned ids are NOT monotonically increasing — the send that
crosses the int64 sign boundary is assigned the suffix `-2^63`, smaller than
its predecessor `2^63 - 1` — refuting the claim as stated for unbounded
lifetimes. -/
theorem claude_c6_wrap_cex :
    ¬ List.Pairwise (fun a b : Int => a < b) (assignedSuffixes initialRun wrapTrace) := by
  intro hpw
  rw [show wrapTrace = sendsN (int64SignBound - 2) ++ twoSends from rfl,
      assignedSuffixes_append] at hpw
  have hM : (runTrace initialRun (sendsN (int64SignBound - 2))).ctrl.requestID
      = int64SignBound - 2 := by
    rw [runTrace_sendsN_requestID (int64SignBound - 2) initialRun (by decide)]
    decide
  have hpw₂ := (List.pairwise_append.mp hpw).2.1
  rw [assignedSuffixes_two_sends, hM] at hpw₂
  have h12 := (List.pairwise_cons.mp hpw₂).1
    (int64OfBits (((int64SignBound - 2 + 1) % uint64Mod + 1) % uint64Mod)) (by simp)
  revert h12
  decide

/-- C6 amended: within one correlator lifetime, as long as the number of
id-assigning sends keeps the int64 counter below its sign boundary (fewer
than `2^63` assignments from a fresh instance), the numeric suffixes of
successively assigned ids are strictly increasing and the assigned id
strings are pairwise distinct; at the `2^63`-th assignment the wrapped
counter makes the suffix negative and monotonicity fails. -/
theorem claude_c6_ids_unique_monotone (s : RunState) (steps : List CtrlStep)
    (h : s.ctrl.requestID + countAssigned steps < int64SignBound) :
    List.Pairwise (· < ·) (assignedSuffixes s steps) ∧ (assignedIds s steps).Nodup := by
  obtain ⟨-, hpw⟩ := assignedSuffixes_nowrap steps s h
  refine ⟨hpw, ?_⟩
  have hp : (assignedSuffixes s steps).Nodup := hpw.imp (fun hlt => ne_of_lt hlt)
  exact hp.map sdkCtrlId_injective

/-- C6 witness: the amended statement evaluated on a fresh correlator and two
supported sends. -/
theorem claude_c6_ids_unique_monotone_witness :
    List.Pairwise (· < ·) (assignedSuffixes initialRun twoSends) ∧
    (assignedIds initialRun twoSends).Nodup :=
  claude_c6_ids_unique_monotone initialRun twoSends (by decide)

/-- C7: when the transport reports no control support, `SendRequest` fails
immediately with the unsupported error, dispatches nothing, and registers no
pending entry; on a correlator with an empty pending table every
`HandleControlResponse` fails with the unknown-request error. -/
theorem claude_c7_unsupported_no_dispatch (tm : TransportModel) (req : ControlRequest)
    (resp : ControlResponse) (s : CtrlState) (hsup : HasControlSupport tm = false)
    (htab : s.table = []) :
    sendRequestStart tm req s = (s, .error .unsupported) ∧
    (sendRequestStart tm req s).1.sent = s.sent ∧
    (sendRequestStart tm req s).1.table = s.table ∧
    HandleControlResponse resp s = .ret s (some (.unknownRequest resp.id)) := by
  have h := sendStart_requestID_unsupported tm req s hsup
  refine ⟨h, by rw [h], by rw [h], ?_⟩
  have hnotmem : resp.id ∉ s.table := by simp [htab]
  simp [HandleControlResponse, hnotmem]

/-- C7 witness: the statement evaluated at a fresh correlator over a
transport without control support. -/
theorem claude_c7_unsupported_no_dispatch_witness :
    sendRequestStart noCtrlTransport sampleReq newControlProtocol
      = (newControlProtocol, .error .unsupported) ∧
    HandleControlResponse successResp newControlProtocol
      = .ret newControlProtocol (some (.unknownRequest successResp.id)) :=
  ⟨(claude_c7_unsupported_no_dispatch noCtrlTransport sampleReq successResp
      newControlProtocol rfl rfl).1,
   (claude_c7_unsupported_no_dispatch noCtrlTransport sampleReq successResp
      newControlProtocol rfl rfl).2.2.2⟩

/-- A callback that returns a deny decision for every input. -/
def denyOutput : GoMap := [("decision", GoVal.str "deny")]

/-- The callback stored under the `Bash` matcher in the C4 run. -/
def cbDeny : HookCallback := fun _ _ _ => .ok (some denyOutput)

/-- A matcher whose pattern `Bash` does not match the tool name `Edit`. -/
def bashMatcher : HookMatcher := { matcher := some "Bash", hooks := [cbDeny] }

/-- Registry after registering `bashMatcher` for pre-tool-use. -/
def hookRegAfter : HookRegistry := (Register NewHookRegistry .preToolUse (some bashMatcher)).2

/-- A pre-tool-use firing whose subject tool is `Edit`. -/
def editInput : HookInput :=
  { hookEventName := .preToolUse, sessionID := "sess", toolName := some "Edit"
    toolInput := [], prompt := none }

/-- An empty hook context. -/
def emptyHookCtx : HookContext := ⟨[]⟩

/-- C4: the claim fails on the code.  The registry's `Execute` applies no
pattern (or event-kind) filter: a callback registered under the pattern
`Bash` — which does not match the firing event's tool name `Edit` — is
nevertheless invoked, and its output is returned instead of the default
continue output the claim requires when no candidate matches. -/
theorem claude_c4_execute_ignores_pattern :
    MatchesPattern bashMatcher.matcher "Edit" = false ∧
    Execute hookRegAfter .preToolUse editInput none emptyHookCtx = .ok denyOutput ∧
    denyOutput ≠ [("continue", GoVal.bool true)] := by
  refine ⟨by decide, rfl, by decide⟩

/-- C8: pattern matching of hook matchers.  A nil pattern matches every
name; a present pattern is tested as a compiled regular expression, with
byte-for-byte equality used only when compilation fails; and the four
specified example pairs evaluate as stated. -/
theorem claude_c8_matches_pattern_spec :
    MatchesPattern none "AnyTool" = true ∧
    (∀ t : String, MatchesPattern none t = true) ∧
    MatchesPattern (some "Bash") "Edit" = false ∧
    MatchesPattern (some "Bash|Edit") "Edit" = true ∧
    MatchesPattern (some "^(Bash|Edit)$") "Write" = false ∧
    (∀ p t : String, ∀ cr : CompiledRegex, regexpCompile p = some cr →
      MatchesPattern (some p) t = MatchString cr t) ∧
    (∀ p t : String, regexpCompile p = none → MatchesPattern (some p) t = (p == t)) := by
  refine ⟨by decide, fun t => rfl, by decide, by decide, by decide, ?_, ?_⟩
  · intro p t cr h
    simp [MatchesPattern, h]
  · intro p t h
    simp [MatchesPattern, h]

/-- C8 witness: the compilation-failure fallback applied to the invalid
pattern left bracket, which matches itself by byte equality. -/
theorem claude_c8_matches_pattern_spec_witness :
    MatchesPattern (some "[") "[" = ("[" == "[") :=
  claude_c8_matches_pattern_spec.2.2.2.2.2.2 "[" "[" (by decide)

/-- C10: single-id `Register` with a matcher holding two or more callbacks
stores only the first callback, under the id `hook_<seq+1>`; invoking that id
runs the first callback; and every id resolves either to the first callback
or to a callback that was already registered before — the remaining
callbacks of the matcher are discarded and never invocable. -/
theorem claude_c10_register_first_only (r : HookRegistry) (ename : HookEventName)
    (pat : Option String) (c₁ c₂ : HookCallback) (rest : List HookCallback)
    (input : HookInput) (tid : Option String) (hctx : HookContext) :
    (Register r ename (some ⟨pat, c₁ :: c₂ :: rest⟩)).1
      = "hook_" ++ natDec (r.callbackIDSeq + 1) ∧
    (Register r ename (some ⟨pat, c₁ :: c₂ :: rest⟩)).2.callbacks
      = insertKey ("hook_" ++ natDec (r.callbackIDSeq + 1)) c₁ r.callbacks ∧
    InvokeCallback (Register r ename (some ⟨pat, c₁ :: c₂ :: rest⟩)).2
        ("hook_" ++ natDec (r.callbackIDSeq + 1)) input tid hctx = c₁ input tid hctx ∧
    (∀ id : String, GetCallback (Register r ename (some ⟨pat, c₁ :: c₂ :: rest⟩)).2 id
      = if id = "hook_" ++ natDec (r.callbackIDSeq + 1) then some c₁ else GetCallback r id) := by
  refine ⟨rfl, rfl, ?_, ?_⟩
  · simp [InvokeCallback, GetCallback, Register, lookupKey_insertKey]
  · intro id
    simp [GetCallback, Register, lookupKey_insertKey]

/-- C5: with a callback installed, `CheckPermission` delivers exactly one of
the four specified outcomes: the callback's result verbatim with nil error;
on callback error a `Callback failed` deny together with a non-nil wrapped
error; on callback panic a deny together with a non-nil error describing the
recovered value; and when nothing is delivered before the bounded
sub-context fires, a `Callback timeout` deny with nil error. -/
theorem claude_c5_check_permission_outcomes (cb : CanUseToolFunc) (toolName : String)
    (input : GoMap) (permCtx : ToolPermissionContext) (r : PermissionResult)
    (m v : String) :
    (cb toolName input permCtx = .ret r →
      CheckPermission (some cb) toolName input permCtx true = (r, none)) ∧
    (cb toolName input permCtx = .err m →
      CheckPermission (some cb) toolName input permCtx true
        = (NewPermissionResultDeny "Callback failed",
           some ("permission callback failed: " ++ m))) ∧
    (cb toolName input permCtx = .panicked v →
      CheckPermission (some cb) toolName input permCtx true
        = (NewPermissionResultDeny "Callback failed",
           some ("permission callback failed: " ++ ("callback panic: " ++ v)))) ∧
    CheckPermission (some cb) toolName input permCtx false
      = (NewPermissionResultDeny "Callback timeout", none) := by
  refine ⟨?_, ?_, ?_, ?_⟩
  · intro h
    simp [CheckPermission, h, runCallbackGoroutine]
  · intro h
    simp [CheckPermission, h, runCallbackGoroutine]
  · intro h
    simp [CheckPermission, h, runCallbackGoroutine]
  · simp [CheckPermission]

/-- C5 witness: the panic outcome evaluated on a concrete panicking
callback, mirroring `TestPermissionManager_CallbackPanic`. -/
theorem claude_c5_check_permission_outcomes_witness :
    CheckPermission (some (fun _ _ _ => .panicked "test panic")) "bash"
        [("command", GoVal.str "echo hello")] ⟨[]⟩ true
      = (NewPermissionResultDeny "Callback failed",
         some ("permission callback failed: " ++ ("callback panic: " ++ "test panic"))) :=
  (claude_c5_check_permission_outcomes (fun _ _ _ => .panicked "test panic") "bash"
    [("command", GoVal.str "echo hello")] ⟨[]⟩ NewPermissionResultAllow "m" "test panic").2.2.1 rfl

/-- C9: with no callback installed, `CheckPermission` returns the allow
result with nil error for every tool name, input and timing. -/
theorem claude_c9_default_allow (toolName : String) (input : GoMap)
    (permCtx : ToolPermissionContext) (deliveredInTime : Bool) :
    CheckPermission none toolName input permCtx deliveredInTime
      = (NewPermissionResultAllow, none) ∧
    (CheckPermission none toolName input permCtx deliveredInTime).1.behavior
      = .allow := by
  exact ⟨rfl, rfl⟩

end ClaudeSDK
